import Mathlib

/-!
# Shallow embedding of the pinform schema layer and query builder

This file embeds the core of the `pinform` repository (a typed schema layer
and query builder in front of InfluxDB) in Lean 4 and proves properties of
the embedded code.

Conventions used throughout:
* Python dictionaries are modelled as association lists preserving insertion
  order (Python 3.7+ dict semantics); assignment to an existing key keeps its
  position, assignment to a fresh key appends (`upsert`).
* Python runtime values flowing through descriptors are modelled by `PyVal`.
* A Python function that can raise becomes a Lean function into
  `Except String _`; the carried string mirrors the exception message.
* Naive `datetime.datetime` values are modelled by `NaiveDatetime` where a
  rendering is needed, and by an integer count of microseconds where only
  translation-invariant `timedelta` arithmetic is involved (`timedelta` has
  microsecond resolution).
-/

namespace Pinform

/-- A naive `datetime.datetime`: broken-down calendar time,
microsecond precision. -/
structure NaiveDatetime where
  year : Nat
  month : Nat
  day : Nat
  hour : Nat
  minute : Nat
  second : Nat
  microsecond : Nat
deriving DecidableEq, Repr

/-- Python runtime values that can be stored through a `Field` or `Tag`
descriptor. `vFloat` carries a rational stand-in for the float payload; none
of the embedded code computes with float values, it only inspects their
runtime class. -/
inductive PyVal where
  | vNone
  | vBool (b : Bool)
  | vInt (n : Int)
  | vFloat (q : Rat)
  | vStr (s : String)
  | vDatetime (d : NaiveDatetime)
deriving DecidableEq, Repr

/-- `isinstance(v, int)`: in Python, `bool` is a subclass of `int`. -/
def isInstInt : PyVal → Bool
  | .vInt _ => true
  | .vBool _ => true
  | _ => false

/-- `isinstance(v, float)` (Python `bool`/`int` are not `float`). -/
def isInstFloat : PyVal → Bool
  | .vFloat _ => true
  | _ => false

/-- `isinstance(v, bool)`. -/
def isInstBool : PyVal → Bool
  | .vBool _ => true
  | _ => false

/-- `isinstance(v, str)`. -/
def isInstStr : PyVal → Bool
  | .vStr _ => true
  | _ => false

/-- `isinstance(v, datetime.datetime)`. -/
def isInstDatetime : PyVal → Bool
  | .vDatetime _ => true
  | _ => false

/-- Ordered-dict lookup. -/
def alookup {α : Type} : List (String × α) → String → Option α
  | [], _ => none
  | (k, v) :: rest, key => if k = key then some v else alookup rest key

/-- Ordered-dict assignment `d[key] = v`: overwrite in place if the key
exists (keeping its position), else append. -/
def upsert {α : Type} : List (String × α) → String → α → List (String × α)
  | [], key, v => [(key, v)]
  | (k, w) :: rest, key, v =>
      if k = key then (k, v) :: rest else (k, w) :: upsert rest key v

/-- `Except.isOk` as a plain boolean on our error monad. -/
def exOk {α : Type} : Except String α → Bool
  | .ok _ => true
  | .error _ => false

/-- Whether the computation raised. -/
def exErr {α : Type} : Except String α → Bool
  | .ok _ => false
  | .error _ => true

/-!
## Field and tag descriptors (src/pinform/fields/__init__.py,
src/pinform/tags/__init__.py)

Each concrete `Field` subclass overrides `__set__` with a runtime
`isinstance` pre-check (and, for the choice/enum variants, a domain
membership check) before delegating to `Field.__set__`, which enforces
nullability and stores into the instance `_data` dict. The base classes
`Field` and `Tag` perform no type check at all. -/

/-- The concrete descriptor classes of `pinform.fields` (`plain` is the
base `Field` class itself). -/
inductive FieldKind where
  | plain
  | integer
  | float
  | boolean
  | string
  | multipleChoiceString (options : List String)
  | enumString (options : List String)
  | multipleChoiceInteger (options : List Int)
  | enumInteger (options : List Int)
deriving DecidableEq, Repr

/-- The `isinstance` check performed by each `Field` subclass's `__set__`
on a non-null value (the base class checks nothing). -/
def runtimeTypeMatches : FieldKind → PyVal → Bool
  | .plain, _ => true
  | .integer, v => isInstInt v
  | .float, v => isInstFloat v
  | .boolean, v => isInstBool v
  | .string, v => isInstStr v
  | .multipleChoiceString _, v => isInstStr v
  | .enumString _, v => isInstStr v
  | .multipleChoiceInteger _, v => isInstInt v
  | .enumInteger _, v => isInstInt v

/-- The domain membership check of the choice/enum field variants
(`value in self.options`), applied only to non-null values that already
passed the type check. -/
def domainAllows : FieldKind → PyVal → Bool
  | .multipleChoiceString opts, .vStr s => opts.contains s
  | .enumString opts, .vStr s => opts.contains s
  | .multipleChoiceInteger opts, .vInt n => opts.contains n
  | .multipleChoiceInteger opts, .vBool b => opts.contains (if b then 1 else 0)
  | .enumInteger opts, .vInt n => opts.contains n
  | .enumInteger opts, .vBool b => opts.contains (if b then 1 else 0)
  | _, _ => true

/-- The subclass portion of `__set__`: `TypeError` on an `isinstance`
failure, then `ValueError` on a domain violation, both only for non-null
values. -/
def fieldTypeCheck (fk : FieldKind) (v : PyVal) : Except String Unit :=
  if v ≠ PyVal.vNone ∧ runtimeTypeMatches fk v = false then
    Except.error "TypeError"
  else if v ≠ PyVal.vNone ∧ domainAllows fk v = false then
    Except.error "ValueError: value not present in options"
  else
    Except.ok ()

/-- `Field.__set__` (the base class): assert non-null when not nullable,
then `instance._data[self.name] = value`. -/
def fieldBaseSet (name : String) (null : Bool) (data : List (String × PyVal))
    (v : PyVal) : Except String (List (String × PyVal)) :=
  if null = false ∧ v = PyVal.vNone then
    Except.error ("AssertionError: Null value for not nullable field: " ++ name)
  else
    Except.ok (upsert data name v)

/-- `__set__` of a concrete field descriptor: the subclass checks, then
`super().__set__`. -/
def fieldSet (fk : FieldKind) (name : String) (null : Bool)
    (data : List (String × PyVal)) (v : PyVal) :
    Except String (List (String × PyVal)) :=
  match fieldTypeCheck fk v with
  | .error e => .error e
  | .ok _ => fieldBaseSet name null data v

/-- `Tag.__set__` (src/pinform/tags/__init__.py lines 13-18): only the
nullability assertion, then store; there is no runtime type check. -/
def tagSet (name : String) (null : Bool) (data : List (String × PyVal))
    (v : PyVal) : Except String (List (String × PyVal)) :=
  if null = false ∧ v = PyVal.vNone then
    Except.error ("AssertionError: Null value for not nullable tag: " ++ name)
  else
    Except.ok (upsert data name v)

/-!
## Measurement name resolution (src/pinform/__init__.py lines 204-215)

`Measurement.get_name` scans the name template with
`re.findall('\((.*?)\)', measurement_name)` and, for each captured
placeholder, checks that the tag mapping supplies it. The call
`measurement_name.replace('(' + name_tag + ')', value)` on line 212 creates
a new string whose value is never assigned anywhere (Python strings are
immutable), so the function returns the template unchanged; the embedding
reproduces that. -/

/-- One pass of the scan performed by `re.findall('\((.*?)\)', s)`:
outside a parenthesized group (`cur = none`) an `'('` opens a group;
inside a group (`cur = some acc`) a `')'` closes it, yielding a capture,
and a newline aborts the group (regex `.` does not match a newline; any
`'('` strictly inside an aborted group cannot produce a match either,
because no `')'` occurs before the newline or the end of the string). -/
def findTagsGo : List Char → Option (List Char) → List String → List String
  | [], _, acc => acc.reverse
  | c :: rest, none, acc =>
      findTagsGo rest (if c = '(' then some [] else none) acc
  | c :: rest, some cur, acc =>
      if c = ')' then findTagsGo rest none (String.mk cur.reverse :: acc)
      else if c = '\n' then findTagsGo rest none acc
      else findTagsGo rest (some (c :: cur)) acc

/-- `re.findall('\((.*?)\)', s)`: all non-greedy parenthesized captures,
left to right. -/
def findNameTags (s : String) : List String :=
  findTagsGo s.toList none []

/-- The per-placeholder loop of `Measurement.get_name`: with a null tag
mapping any placeholder raises; with a mapping, a placeholder absent from
its keys raises. The tag values themselves are never used for the result
(the `replace` result is discarded), hence the mapping's value type is
arbitrary here: only key membership matters. -/
def checkNameTags {α : Type} :
    List String → Option (List (String × α)) → Except String Unit
  | [], _ => .ok ()
  | t :: _, none =>
      .error ("Name resolution needs a tag named " ++ t ++
        " but null name resolution tags is provided")
  | t :: rest, some m =>
      match alookup m t with
      | some _ => checkNameTags rest (some m)
      | none =>
          .error ("Tag with name " ++ t ++
            " not provided in name resolution tags for resolving dynamic measurement name")

/-- `Measurement.get_name(cls, name_resolution_tags)`: check every
placeholder, then return `measurement_name` — unchanged, because the
`.replace(...)` result on line 212 is never assigned. -/
def get_name {α : Type} (measurementName : String)
    (nameResolutionTags : Option (List (String × α))) : Except String String :=
  match checkNameTags (findNameTags measurementName) nameResolutionTags with
  | .error e => .error e
  | .ok _ => .ok measurementName

/-- Replace every (non-overlapping, leftmost-first) occurrence of `pat`
in the list by `rep`; fuelled recursion, the fuel is the list length. -/
def replaceGo (rep pat : List Char) : Nat → List Char → List Char
  | 0, l => l
  | _ + 1, [] => []
  | n + 1, c :: rest =>
      if pat.isPrefixOf (c :: rest) ∧ pat ≠ [] then
        rep ++ replaceGo rep pat n (List.drop pat.length (c :: rest))
      else
        c :: replaceGo rep pat n rest

/-- Python `s.replace(pat, rep)` for a non-empty pattern. -/
def strReplace (s pat rep : String) : String :=
  String.mk (replaceGo rep.toList pat.toList s.toList.length s.toList)

/-- Modelled from the spec (section 4.2): `resolveName` as the spec
describes it — "Each placeholder is textually replaced with its value" —
used only to compare the specified behaviour with the behaviour of the
source's `Measurement.get_name`. Placeholders are resolved in scan order;
a missing tag is ignored here (the error path is shared with the source
and is not under comparison). -/
def specResolveName (template : String) (tags : List (String × String)) : String :=
  (findNameTags template).foldl
    (fun acc t =>
      match alookup tags t with
      | some v => strReplace acc ("(" ++ t ++ ")") v
      | none => acc)
    template

/-!
## Aggregation catalog (src/pinform/client.py lines 40-90)
-/

/-- `AggregationMode` enumeration. -/
inductive AggregationMode where
  | NONE | MEAN | MEDIAN | COUNT | MIN | MAX | SUM | FIRST | LAST | SPREAD | STDDEV
deriving DecidableEq, Repr

/-- `AggregationMode.get_str`: the wire-level function name (empty for
`NONE`). -/
def AggregationMode.get_str : AggregationMode → String
  | .NONE => ""
  | .MEAN => "mean"
  | .MEDIAN => "median"
  | .COUNT => "count"
  | .MIN => "min"
  | .MAX => "max"
  | .SUM => "sum"
  | .FIRST => "first"
  | .LAST => "last"
  | .SPREAD => "spread"
  | .STDDEV => "stddev"

/-- `AggregationMode.get_result_field_name`. -/
def AggregationMode.get_result_field_name (m : AggregationMode)
    (fieldName : String) : String :=
  if m = AggregationMode.NONE then fieldName
  else m.get_str ++ "_" ++ fieldName

/-- `AggregationMode.aggregate_field`. -/
def AggregationMode.aggregate_field (m : AggregationMode)
    (fieldName : String) : String :=
  if m = AggregationMode.NONE then fieldName
  else m.get_str ++ "(" ++ fieldName ++ ") AS " ++ m.get_str ++ "_" ++ fieldName

/-!
## Time units, the group-by grammar, and the window-index calculation
(src/pinform/client.py lines 93-151, 254-256)

Timestamps and `timedelta`s are modelled on the microsecond timeline
(`Int`), `timedelta`'s resolution. `timedelta(hours=value / 2.0)` and its
unit siblings are modelled exactly: every unit's duration in microseconds
is even, so the half-interval offset is the integer
`value * (unitMicroseconds u / 2)` with no rounding. -/

/-- `AggregationTimeUnit` enumeration. -/
inductive AggregationTimeUnit where
  | SECOND | MINUTE | HOUR | DAY
deriving DecidableEq, Repr

/-- `AggregationTimeUnit.from_str` (the argument is the single unit
character `group_by_time_str[-1]`). -/
def timeUnitFromStr (c : Char) : Except String AggregationTimeUnit :=
  if c = 'm' then .ok .MINUTE
  else if c = 'd' then .ok .DAY
  else if c = 'h' then .ok .HOUR
  else if c = 's' then .ok .SECOND
  else .error ("invalid time unit " ++ String.mk [c])

/-- Duration of one unit, in microseconds. -/
def unitMicroseconds : AggregationTimeUnit → Int
  | .SECOND => 1000000
  | .MINUTE => 60000000
  | .HOUR => 3600000000
  | .DAY => 86400000000

/-- Digit run of a Python integer literal: decimal digits with single
underscores allowed strictly between digits (PEP 515). -/
def pyIntDigitsGo (acc : Nat) : List Char → Option Nat
  | [] => some acc
  | c :: rest =>
      if c.isDigit then pyIntDigitsGo (acc * 10 + (c.toNat - 48)) rest
      else if c = '_' then
        match rest with
        | [] => none
        | d :: rest' =>
            if d.isDigit then pyIntDigitsGo (acc * 10 + (d.toNat - 48)) rest'
            else none
      else none

/-- Nonempty digit run (must start with a digit). -/
def pyIntDigits : List Char → Option Nat
  | [] => none
  | c :: rest => if c.isDigit then pyIntDigitsGo (c.toNat - 48) rest else none

/-- ASCII whitespace stripped by Python's `int(str)`. -/
def isPyWs (c : Char) : Bool :=
  c = ' ' ∨ c = '\t' ∨ c = '\n' ∨ c = '\r' ∨ c = '\x0b' ∨ c = '\x0c'

/-- The sign-and-digits portion of Python `int(str)`, after whitespace
stripping. -/
def pyIntSigned : List Char → Option Int
  | [] => none
  | c :: rest =>
      if c = '+' then (pyIntDigits rest).map Int.ofNat
      else if c = '-' then (pyIntDigits rest).map (fun n => -(n : Int))
      else (pyIntDigits (c :: rest)).map Int.ofNat

/-- Python `int(s)` on an ASCII string: strip surrounding whitespace, one
optional sign, then a digit run (with PEP 515 underscores); `none` models
`ValueError`. -/
def pyInt (s : String) : Option Int :=
  pyIntSigned ((s.toList.dropWhile isPyWs).reverse.dropWhile isPyWs |>.reverse)

/-- `AggregationWindowIndex.get_value_and_unit(group_by_time_str)`:
`int(s[0:len(s)-1])` then `AggregationTimeUnit.from_str(s[-1])` (the
indexing of `s[-1]` on the empty string raises `IndexError`; the `int`
conversion is evaluated before `from_str`). -/
def get_value_and_unit (s : String) :
    Except String (Int × AggregationTimeUnit) :=
  match s.toList.getLast? with
  | none => .error "IndexError: string index out of range"
  | some u =>
      match pyInt (String.mk s.toList.dropLast) with
      | none => .error "ValueError: invalid literal for int() with base 10"
      | some v =>
          match timeUnitFromStr u with
          | .error e => .error e
          | .ok unit => .ok (v, unit)

/-- `AggregationWindowIndex` enumeration. -/
inductive AggregationWindowIndex where
  | START | CENTER | END
deriving DecidableEq, Repr

/-- `AggregationWindowIndex.get_time_point_of_window` (client.py lines
118-146): `START` returns the bucket start without ever parsing the
interval string; `CENTER` and `END` parse it and add the (half-)interval
offset, here in exact microsecond arithmetic. -/
def get_time_point_of_window (al : AggregationWindowIndex)
    (windowStartTime : Int) (groupByTimeStr : String) : Except String Int :=
  match al with
  | .START => .ok windowStartTime
  | .CENTER =>
      match get_value_and_unit groupByTimeStr with
      | .error e => .error e
      | .ok (v, u) => .ok (windowStartTime + v * (unitMicroseconds u / 2))
  | .END =>
      match get_value_and_unit groupByTimeStr with
      | .error e => .error e
      | .ok (v, u) => .ok (windowStartTime + v * unitMicroseconds u)

/-- The group-by interval grammar `^[1-9][0-9]*[dhms]$` on a character
list: at least two characters, a leading `1`-`9`, decimal digits in
between, and a final unit character in `{d, h, m, s}` (the `getLastD`
default is irrelevant under the nonemptiness conjunct). -/
def matchesGrammarList : List Char → Bool
  | [] => false
  | c :: cs =>
      !cs.isEmpty &&
      (decide ('1' ≤ c) && decide (c ≤ '9')) &&
      cs.dropLast.all (fun x => x.isDigit) &&
      (cs.getLastD '?' = 'd' || cs.getLastD '?' = 'h' ||
       cs.getLastD '?' = 'm' || cs.getLastD '?' = 's')

/-- The group-by interval grammar `^[1-9][0-9]*[dhms]$` checked by
`get_fields_as_series` (client.py line 254). -/
def matchesGrammar (s : String) : Bool :=
  matchesGrammarList s.toList

/-!
## Schema (Measurement class) and record (instance) model
(src/pinform/__init__.py)

`MeasurementMeta` registers every class attribute that is a `Field` or
`Tag` instance; a class is modelled as its measurement-name template plus
the ordered association of attribute names to descriptors. An instance is
its `time_point` plus the `_data` dict written through the descriptors. -/

/-- A declared descriptor: a `Field` of some concrete kind, or a `Tag`;
both carry their `null`(able) flag. -/
inductive Descriptor where
  | field (fk : FieldKind) (null : Bool)
  | tag (null : Bool)
deriving DecidableEq, Repr

/-- A measurement class: name template plus the ordered descriptor dict. -/
structure ModelClass where
  measurementName : String
  attrs : List (String × Descriptor)
deriving DecidableEq, Repr

/-- A measurement instance: `time_point` plus the `_data` dict. -/
structure Instance where
  timePoint : NaiveDatetime
  data : List (String × PyVal)
deriving DecidableEq, Repr

/-- The declared field names, in declaration order. -/
def fieldNames (cls : ModelClass) : List String :=
  cls.attrs.filterMap (fun p =>
    match p.2 with
    | .field _ _ => some p.1
    | .tag _ => none)

/-- The declared tag names, in declaration order. -/
def tagNames (cls : ModelClass) : List String :=
  cls.attrs.filterMap (fun p =>
    match p.2 with
    | .tag _ => some p.1
    | .field _ _ => none)

/-- One keyword argument of `my_custom_init` (lines 56-69): dispatch on
whether the key names a declared field, a declared tag, or is
`"time_point"`; anything else raises. `setattr` through a declared name
invokes the descriptor's validating `__set__`. -/
def initStep (cls : ModelClass) (st : Instance) (k : String) (v : PyVal) :
    Except String Instance :=
  match alookup cls.attrs k with
  | some (.field fk nl) =>
      (fieldSet fk k nl st.data v).map (fun d => { st with data := d })
  | some (.tag nl) =>
      (tagSet k nl st.data v).map (fun d => { st with data := d })
  | none =>
      if k = "time_point" then
        match v with
        | .vDatetime d => .ok { st with timePoint := d }
        | _ => .error "time_point given is not instance of datetime.datetime"
      else
        .error ("value given in instance initialization but was not defined in model as Tag or Field. key:" ++ k)

/-- The keyword loop of `my_custom_init`, in iteration order; the first
raise aborts construction. -/
def initLoop (cls : ModelClass) : Instance → List (String × PyVal) →
    Except String Instance
  | st, [] => .ok st
  | st, (k, v) :: rest =>
      match initStep cls st k v with
      | .error e => .error e
      | .ok st' => initLoop cls st' rest

/-- `my_custom_init(self, time_point, **kwargs)` (metaclass-installed
`__init__`, lines 50-70): start from an empty `_data` and the positional
`time_point`, then process the keyword arguments. -/
def myCustomInit (cls : ModelClass) (tp : NaiveDatetime)
    (kwargs : List (String × PyVal)) : Except String Instance :=
  initLoop cls { timePoint := tp, data := [] } kwargs

/-- `Field.__get__`/`Tag.__get__`: `instance._data[self.name]`, raising
`KeyError` when the attribute was never stored. -/
def instanceGet (inst : Instance) (name : String) : Except String PyVal :=
  match alookup inst.data name with
  | some v => .ok v
  | none => .error ("KeyError: " ++ name)

/-- `get_fields_and_field_values_as_dict`: for each declared field, in
declaration order, read its value through `__get__`; the triple carries
the descriptor's `null` flag for the subsequent check. -/
def collectFields (inst : Instance) :
    List (String × Descriptor) → Except String (List (String × Bool × PyVal))
  | [] => .ok []
  | (n, .field _ nl) :: rest =>
      match instanceGet inst n with
      | .error e => .error e
      | .ok v =>
          match collectFields inst rest with
          | .error e => .error e
          | .ok r => .ok ((n, nl, v) :: r)
  | (_, .tag _) :: rest => collectFields inst rest

/-- `get_tags_and_tag_values_as_dict`, analogously for tags. -/
def collectTags (inst : Instance) :
    List (String × Descriptor) → Except String (List (String × Bool × PyVal))
  | [] => .ok []
  | (n, .tag nl) :: rest =>
      match instanceGet inst n with
      | .error e => .error e
      | .ok v =>
          match collectTags inst rest with
          | .error e => .error e
          | .ok r => .ok ((n, nl, v) :: r)
  | (_, .field _ _) :: rest => collectTags inst rest

/-- The non-null loops of `get_cli_format` (lines 223-230): raise on the
first non-nullable entry holding `None`. -/
def checkNonNullList (kindWord : String) :
    List (String × Bool × PyVal) → Except String Unit
  | [] => .ok ()
  | (n, nl, v) :: rest =>
      if nl = false ∧ v = PyVal.vNone then
        .error ("Null value passed for non-nullable " ++ kindWord ++ " " ++ n)
      else checkNonNullList kindWord rest

/-- `get_field_values_as_dict`: the field dict without the descriptors. -/
def fieldValuesDict (inst : Instance) (attrs : List (String × Descriptor)) :
    Except String (List (String × PyVal)) :=
  (collectFields inst attrs).map (List.map (fun t => (t.1, t.2.2)))

/-- `get_tag_values_as_dict`. -/
def tagValuesDict (inst : Instance) (attrs : List (String × Descriptor)) :
    Except String (List (String × PyVal)) :=
  (collectTags inst attrs).map (List.map (fun t => (t.1, t.2.2)))

/-- Whether the instance stores a value for attribute `n`, non-null when
the descriptor is non-nullable (`nl = false`). -/
def presentOk (inst : Instance) (n : String) (nl : Bool) : Bool :=
  match alookup inst.data n with
  | some v => nl || decide (v ≠ PyVal.vNone)
  | none => false

/-- `presentOk` for one declared attribute. -/
def attrOk (inst : Instance) : String × Descriptor → Bool
  | (n, .field _ nl) => presentOk inst n nl
  | (n, .tag nl) => presentOk inst n nl

/-- Every declared field and tag of the class has a stored value in the
instance, non-null wherever the descriptor is non-nullable: the premise
under which serialization must succeed. -/
def recordOk (cls : ModelClass) (inst : Instance) : Bool :=
  cls.attrs.all (attrOk inst)

/-- Zero-pad a natural to a fixed width. -/
def padZeros (width : Nat) (n : Nat) : String :=
  String.mk (List.replicate (width - (toString n).length) '0') ++ toString n

/-- `str(datetime.datetime(...))` for a naive datetime: `isoformat` with a
space separator, microseconds printed only when non-zero. -/
def pyDatetimeStr (d : NaiveDatetime) : String :=
  padZeros 4 d.year ++ "-" ++ padZeros 2 d.month ++ "-" ++ padZeros 2 d.day ++
  " " ++ padZeros 2 d.hour ++ ":" ++ padZeros 2 d.minute ++ ":" ++
  padZeros 2 d.second ++
  (if d.microsecond = 0 then "" else "." ++ padZeros 6 d.microsecond)

/-- The wire record returned by `get_cli_format`: the dict literal on
lines 234-239, which has exactly the four keys
`measurement`, `tags`, `time`, `fields`. -/
structure CliRecord where
  measurement : String
  tags : List (String × PyVal)
  time : String
  fields : List (String × PyVal)
deriving DecidableEq, Repr

/-- `Measurement.get_cli_format` (lines 220-239): read all field values
and check non-nullability, likewise for tags, then resolve the measurement
name from the instance's own tag values and emit the wire record. -/
def get_cli_format (cls : ModelClass) (inst : Instance) :
    Except String CliRecord :=
  match collectFields inst cls.attrs with
  | .error e => .error e
  | .ok fvals =>
  match checkNonNullList "field" fvals with
  | .error e => .error e
  | .ok _ =>
  match collectTags inst cls.attrs with
  | .error e => .error e
  | .ok tvals =>
  match checkNonNullList "tag" tvals with
  | .error e => .error e
  | .ok _ =>
  match tagValuesDict inst cls.attrs with
  | .error e => .error e
  | .ok td =>
  match get_name cls.measurementName (some td) with
  | .error e => .error e
  | .ok nm =>
  match fieldValuesDict inst cls.attrs with
  | .error e => .error e
  | .ok fd =>
      .ok { measurement := nm, tags := td,
            time := pyDatetimeStr inst.timePoint, fields := fd }

/-!
## Query construction (src/pinform/client.py lines 18-37, 179-207, 240-309)

The rfc3339 renderings of time bounds are produced by the external
`rfc3339` library; the builders below receive those already-rendered
strings and assemble the query text exactly as the source does. -/

/-- `FillMode` enumeration. -/
inductive FillMode where
  | NULL | PREVIOUS | NUMBER | NONE | LINEAR
deriving DecidableEq, Repr

/-- `FillMode.get_str`. -/
def FillMode.get_str : FillMode → String
  | .NULL => "null"
  | .PREVIOUS => "previous"
  | .NUMBER => "number"
  | .NONE => "none"
  | .LINEAR => "linear"

/-- The `time_range` argument after rendering: either a `datetime.date`
(rendered day start and next-day start) or a `(since, until)` pair of
optional rendered datetimes. -/
inductive TimeRangeStrs where
  | date (dayStart nextDayStart : String)
  | pair (sinceStr untilStr : Option String)
deriving DecidableEq, Repr

/-- Tag equality conditions `"<tag>"='<value>'`, in the mapping's
iteration order. -/
def tagConditions (tags : List (String × String)) : List String :=
  tags.map (fun p => "\"" ++ p.1 ++ "\"='" ++ p.2 ++ "'")

/-- The time-range conditions: a day becomes one half-open interval
condition; a pair renders only its non-null bounds. -/
def timeConditions : Option TimeRangeStrs → List String
  | none => []
  | some (.date d1 d2) =>
      ["time >= '" ++ d1 ++ "' and time < '" ++ d2 ++ "'"]
  | some (.pair s u) =>
      (match s with
       | some x => ["time >= '" ++ x ++ "'"]
       | none => []) ++
      (match u with
       | some x => ["time <= '" ++ x ++ "'"]
       | none => [])

/-- Python `sep.join(xs)`. -/
def joinStr (sep : String) : List String → String
  | [] => ""
  | [x] => x
  | x :: y :: rest => x ++ sep ++ joinStr sep (y :: rest)

/-- ` WHERE <conds AND-joined>`, or nothing when there is no condition. -/
def whereClause (conds : List String) : String :=
  if conds.length > 0 then " WHERE " ++ joinStr " AND " conds else ""

/-- The query string built by `InfluxClient.load_points` (lines 183-207):
`SELECT * FROM <resolved name>`, tag conditions then time conditions
AND-joined behind `WHERE`, an optional `LIMIT`, and the terminating
semicolon. Name resolution runs first and a resolution failure aborts
before any query text exists. -/
def load_points_query (template : String) (tags : Option (List (String × String)))
    (tr : Option TimeRangeStrs) (lim : Option Int) : Except String String :=
  match get_name template tags with
  | .error e => .error e
  | .ok nm =>
      let base := "SELECT * FROM " ++ nm
      let conds :=
        (match tags with
         | none => []
         | some ts => tagConditions ts) ++ timeConditions tr
      let q1 := base ++ whereClause conds
      let q2 :=
        match lim with
        | none => q1
        | some l => q1 ++ " LIMIT " ++ toString l
      .ok (q2 ++ ";")

/-- Line 246: `field_aggregations` must be a non-empty mapping. -/
def checkFieldAggregations :
    Option (List (String × Option (List AggregationMode))) → Except String Unit
  | none => .error "Null or invalid field aggregations"
  | some fa =>
      if fa.length = 0 then .error "Null or invalid field aggregations"
      else .ok ()

/-- Lines 249-252: the fill-mode/fill-number coupling asserts. -/
def checkFill (fillMode : Option FillMode) (fillNumber : Option Int) :
    Except String Unit :=
  if fillMode ≠ none ∧ fillMode = some FillMode.NUMBER then
    if fillNumber = none then
      .error "AssertionError: Null fill number passed with number fill mode"
    else .ok ()
  else
    if fillNumber ≠ none then
      .error "AssertionError: Fill number passed with non-number fill mode"
    else .ok ()

/-- Lines 254-256: the group-by interval, when given, must match
`^[1-9][0-9]*[dhms]$`. -/
def checkGroupBy : Option String → Except String Unit
  | none => .ok ()
  | some s =>
      if matchesGrammar s then .ok ()
      else .error ("AssertionError: Invalid group by time " ++ s)

/-- Lines 263-274: build the select expressions and the result column
names; a field name missing from the measurement raises; an absent or
empty mode list passes the bare field through. -/
def buildAggSelect (clsFieldNames : List String) (measurementName : String) :
    List (String × Option (List AggregationMode)) →
    Except String (List String × List String)
  | [] => .ok ([], [])
  | (fn, modes) :: rest =>
      if clsFieldNames.contains fn = false then
        .error ("Field name " ++ fn ++ " not found in measurement " ++
          measurementName ++ " fields")
      else
        let pair :=
          match modes with
          | none => ([fn], [fn])
          | some [] => ([fn], [fn])
          | some ms =>
              (ms.map (fun m => AggregationMode.aggregate_field m fn),
               ms.map (fun m => AggregationMode.get_result_field_name m fn))
        match buildAggSelect clsFieldNames measurementName rest with
        | .error e => .error e
        | .ok (ps, ans) => .ok (pair.1 ++ ps, pair.2 ++ ans)

/-- The query string built by `InfluxClient.get_fields_as_series`
(lines 246-309): the three validation steps run before any query text is
assembled, then name resolution, then the select list, WHERE, GROUP BY,
LIMIT and FILL clauses in that order (this query carries no trailing
semicolon in the source). -/
def get_fields_as_series_query (cls : ModelClass)
    (fa : Option (List (String × Option (List AggregationMode))))
    (tags : Option (List (String × String))) (groupBy : Option String)
    (fillMode : Option FillMode) (fillNumber : Option Int)
    (tr : Option TimeRangeStrs) (lim : Option Int) : Except String String :=
  match checkFieldAggregations fa with
  | .error e => .error e
  | .ok _ =>
  match checkFill fillMode fillNumber with
  | .error e => .error e
  | .ok _ =>
  match checkGroupBy groupBy with
  | .error e => .error e
  | .ok _ =>
  match get_name cls.measurementName tags with
  | .error e => .error e
  | .ok nm =>
  match buildAggSelect (fieldNames cls) nm (fa.getD []) with
  | .error e => .error e
  | .ok (props, _aggNames) =>
      let q0 := "SELECT " ++ joinStr ", " props ++ " FROM " ++ nm
      let conds :=
        (match tags with
         | none => []
         | some ts => tagConditions ts) ++ timeConditions tr
      let q1 := q0 ++ whereClause conds
      let q2 :=
        match groupBy with
        | none => q1
        | some g => q1 ++ " GROUP BY time(" ++ g ++ ")"
      let q3 :=
        match lim with
        | none => q2
        | some l => q2 ++ " LIMIT " ++ toString l
      let q4 :=
        match fillMode with
        | none => q3
        | some fm =>
            if fm = FillMode.NUMBER then
              q3 ++ " FILL(" ++
                (match fillNumber with
                 | some n => toString n
                 | none => "None") ++ ")"
            else q3 ++ " FILL(" ++ fm.get_str ++ ")"
      .ok q4

/-- The concrete class of the C4 witness: a non-nullable float field
`temp` and a non-nullable tag `host` under the static template `"cpu"`. -/
def demoClass : ModelClass :=
  ⟨"cpu", [("temp", Descriptor.field FieldKind.float false),
           ("host", Descriptor.tag false)]⟩

/-- The concrete record of the C4 witness, timestamped
2020-01-01 00:00:00. -/
def demoRecord : Instance :=
  ⟨⟨2020, 1, 1, 0, 0, 0, 0⟩,
   [("temp", PyVal.vFloat 1), ("host", PyVal.vStr "a1")]⟩

/-!
## Helper lemmas
-/

/-- A decimal digit is not Python-`int` whitespace. -/
theorem isDigit_not_pyWs (c : Char) (h : c.isDigit = true) : isPyWs c = false := by
  unfold isPyWs
  simp only [decide_eq_false_iff_not]
  rintro (rfl | rfl | rfl | rfl | rfl | rfl) <;> exact absurd h (by decide)

/-- `dropWhile` is the identity when no element satisfies the predicate. -/
theorem dropWhile_all_false (p : Char → Bool) (l : List Char)
    (h : ∀ x ∈ l, p x = false) : l.dropWhile p = l := by
  cases l with
  | nil => rfl
  | cons x xs => simp [List.dropWhile, h x (by simp)]

/-- An all-digit run always parses. -/
theorem digitRun_parse (l : List Char) (acc : Nat)
    (h : l.all Char.isDigit = true) : ∃ n, pyIntDigitsGo acc l = some n := by
  induction l generalizing acc with
  | nil => exact ⟨acc, rfl⟩
  | cons c rest ih =>
      simp only [List.all_cons, Bool.and_eq_true] at h
      obtain ⟨n, hn⟩ := ih (acc * 10 + (c.toNat - 48)) h.2
      refine ⟨n, ?_⟩
      unfold pyIntDigitsGo
      rw [if_pos h.1]
      exact hn

/-- A nonempty all-digit run always parses. -/
theorem pyIntDigits_parse (c : Char) (cs : List Char) (hc : c.isDigit = true)
    (hcs : cs.all Char.isDigit = true) :
    ∃ n, pyIntDigits (c :: cs) = some n := by
  obtain ⟨n, hn⟩ := digitRun_parse cs (c.toNat - 48) hcs
  refine ⟨n, ?_⟩
  simp only [pyIntDigits]
  rw [if_pos hc]
  exact hn

/-- Python `int()` accepts a nonempty all-digit string. -/
theorem pyInt_digits (c : Char) (cs : List Char) (hc : c.isDigit = true)
    (hcs : cs.all Char.isDigit = true) :
    ∃ v, pyInt (String.mk (c :: cs)) = some v := by
  have hall : ∀ x ∈ c :: cs, isPyWs x = false := by
    intro x hx
    apply isDigit_not_pyWs
    rcases List.mem_cons.mp hx with rfl | hxc
    · exact hc
    · exact List.all_eq_true.mp hcs x hxc
  have hlist :
      (((String.mk (c :: cs)).toList.dropWhile isPyWs).reverse.dropWhile
          isPyWs).reverse = c :: cs := by
    have h1 : (String.mk (c :: cs)).toList = c :: cs := rfl
    rw [h1, dropWhile_all_false _ _ hall,
      dropWhile_all_false _ _ (by intro x hx; exact hall x (List.mem_reverse.mp hx)),
      List.reverse_reverse]
  obtain ⟨n, hn⟩ := pyIntDigits_parse c cs hc hcs
  have hplus : ¬c = '+' := by
    intro hcp; rw [hcp] at hc; exact absurd hc (by decide)
  have hminus : ¬c = '-' := by
    intro hcp; rw [hcp] at hc; exact absurd hc (by decide)
  refine ⟨Int.ofNat n, ?_⟩
  unfold pyInt
  rw [hlist]
  simp only [pyIntSigned]
  rw [if_neg hplus, if_neg hminus, hn]
  rfl

/-- A string matching the group-by grammar is accepted by
`get_value_and_unit`. -/
theorem grammar_parse (s : String) (h : matchesGrammar s = true) :
    ∃ v u, get_value_and_unit s = Except.ok (v, u) := by
  unfold matchesGrammar at h
  rcases hl : s.toList with _ | ⟨c, cs⟩
  · rw [hl] at h; exact absurd h (by decide)
  rcases List.eq_nil_or_concat cs with rfl | ⟨mid, u, rfl⟩
  · rw [hl] at h; simp [matchesGrammarList] at h
  rw [List.concat_eq_append] at hl
  rw [hl] at h
  simp only [matchesGrammarList] at h
  rw [List.dropLast_concat, List.getLastD_concat] at h
  simp only [Bool.and_eq_true, Bool.or_eq_true, decide_eq_true_eq] at h
  obtain ⟨⟨⟨_, h1, h9⟩, hmid⟩, hu⟩ := h
  have hc : c.isDigit = true := by
    unfold Char.isDigit
    simp only [Bool.and_eq_true, decide_eq_true_eq]
    exact ⟨le_trans (show ('0' : Char) ≤ '1' by decide) h1, h9⟩
  obtain ⟨v, hv⟩ := pyInt_digits c mid hc hmid
  have hcons : c :: (mid ++ [u]) = (c :: mid) ++ [u] := rfl
  have hlast : (c :: (mid ++ [u])).getLast? = some u := by
    rw [hcons]; exact List.getLast?_concat _
  have hdrop : (c :: (mid ++ [u])).dropLast = c :: mid := by
    rw [hcons]; exact List.dropLast_concat
  have hdata : s.data = c :: (mid ++ [u]) := hl
  rcases hu with ((rfl | rfl) | rfl) | rfl
  · exact ⟨v, .DAY, by simp [get_value_and_unit, hdata, hlast, hdrop, hv, timeUnitFromStr]⟩
  · exact ⟨v, .HOUR, by simp [get_value_and_unit, hdata, hlast, hdrop, hv, timeUnitFromStr]⟩
  · exact ⟨v, .MINUTE, by simp [get_value_and_unit, hdata, hlast, hdrop, hv, timeUnitFromStr]⟩
  · exact ⟨v, .SECOND, by simp [get_value_and_unit, hdata, hlast, hdrop, hv, timeUnitFromStr]⟩

/-- If a required placeholder tag is absent from the mapping, the
placeholder check raises. -/
theorem checkNameTags_missing {α : Type} (t : String) (ts : List (String × α)) :
    ∀ (l : List String), t ∈ l → alookup ts t = none →
      exErr (checkNameTags l (some ts)) = true := by
  intro l
  induction l with
  | nil => intro ht _; exact absurd ht (List.not_mem_nil t)
  | cons a rest ih =>
      intro ht hnone
      rcases List.mem_cons.mp ht with rfl | hmem
      · simp [checkNameTags, hnone, exErr]
      · cases ha : alookup ts a with
        | none => simp [checkNameTags, ha, exErr]
        | some x =>
            simp only [checkNameTags, ha]
            exact ih hmem hnone

/-- Under `attrOk`, reading all field values succeeds and the non-null
check passes. -/
theorem collectFields_ok (inst : Instance) :
    ∀ (l : List (String × Descriptor)), (∀ p ∈ l, attrOk inst p = true) →
      ∃ r, collectFields inst l = Except.ok r ∧
        checkNonNullList "field" r = Except.ok () := by
  intro l
  induction l with
  | nil => exact fun _ => ⟨[], rfl, rfl⟩
  | cons p rest ih =>
      intro h
      obtain ⟨r, hr, hchk⟩ := ih (fun q hq => h q (List.mem_cons_of_mem p hq))
      cases p with
      | mk n d =>
          cases d with
          | tag nl =>
              refine ⟨r, ?_, hchk⟩
              simp only [collectFields]
              exact hr
          | field fk nl =>
              have hp := h (n, Descriptor.field fk nl) (List.mem_cons_self _ _)
              simp only [attrOk, presentOk] at hp
              cases ha : alookup inst.data n with
              | none => rw [ha] at hp; simp at hp
              | some v =>
                  rw [ha] at hp
                  refine ⟨(n, nl, v) :: r, ?_, ?_⟩
                  · simp [collectFields, instanceGet, ha, hr]
                  · have hnn : ¬(nl = false ∧ v = PyVal.vNone) := by
                      rintro ⟨rfl, rfl⟩
                      simp at hp
                    simp only [checkNonNullList]
                    rw [if_neg hnn]
                    exact hchk

/-- Under `attrOk`, reading all tag values succeeds and the non-null
check passes. -/
theorem collectTags_ok (inst : Instance) :
    ∀ (l : List (String × Descriptor)), (∀ p ∈ l, attrOk inst p = true) →
      ∃ r, collectTags inst l = Except.ok r ∧
        checkNonNullList "tag" r = Except.ok () := by
  intro l
  induction l with
  | nil => exact fun _ => ⟨[], rfl, rfl⟩
  | cons p rest ih =>
      intro h
      obtain ⟨r, hr, hchk⟩ := ih (fun q hq => h q (List.mem_cons_of_mem p hq))
      cases p with
      | mk n d =>
          cases d with
          | field fk nl =>
              refine ⟨r, ?_, hchk⟩
              simp only [collectTags]
              exact hr
          | tag nl =>
              have hp := h (n, Descriptor.tag nl) (List.mem_cons_self _ _)
              simp only [attrOk, presentOk] at hp
              cases ha : alookup inst.data n with
              | none => rw [ha] at hp; simp at hp
              | some v =>
                  rw [ha] at hp
                  refine ⟨(n, nl, v) :: r, ?_, ?_⟩
                  · simp [collectTags, instanceGet, ha, hr]
                  · have hnn : ¬(nl = false ∧ v = PyVal.vNone) := by
                      rintro ⟨rfl, rfl⟩
                      simp at hp
                    simp only [checkNonNullList]
                    rw [if_neg hnn]
                    exact hchk

/-- The keys of the collected tag triples are exactly the declared tag
names, in declaration order. -/
theorem collectTags_keys (inst : Instance) :
    ∀ (l : List (String × Descriptor)) (r : List (String × Bool × PyVal)),
      collectTags inst l = Except.ok r →
      r.map (fun t => t.1) = l.filterMap (fun p =>
        match p.2 with
        | .tag _ => some p.1
        | .field _ _ => none) := by
  intro l
  induction l with
  | nil =>
      intro r hr
      simp only [collectTags] at hr
      cases hr
      rfl
  | cons p rest ih =>
      intro r hr
      cases p with
      | mk n d =>
          cases d with
          | field fk nl =>
              simp only [collectTags] at hr
              simp only [List.filterMap_cons]
              exact ih r hr
          | tag nl =>
              simp only [collectTags] at hr
              cases hg : instanceGet inst n with
              | error e => rw [hg] at hr; cases hr
              | ok v =>
                  rw [hg] at hr
                  cases hcr : collectTags inst rest with
                  | error e => rw [hcr] at hr; cases hr
                  | ok r' =>
                      rw [hcr] at hr
                      cases hr
                      simp only [List.map_cons, List.filterMap_cons]
                      rw [ih r' hcr]

/-- A key among the mapping's keys has a value. -/
theorem alookup_mem_keys {α : Type} :
    ∀ (m : List (String × α)) (t : String), t ∈ m.map Prod.fst →
      ∃ v, alookup m t = some v := by
  intro m
  induction m with
  | nil => intro t ht; exact absurd ht (List.not_mem_nil t)
  | cons p rest ih =>
      intro t ht
      rcases List.mem_cons.mp ht with heq | hmem
      · exact ⟨p.2, by simp [alookup, heq]⟩
      · by_cases hk : p.1 = t
        · exact ⟨p.2, by simp [alookup, hk]⟩
        · obtain ⟨v, hv⟩ := ih t hmem
          exact ⟨v, by simp [alookup, hk, hv]⟩

/-- When every placeholder has a value in the mapping, the placeholder
check passes. -/
theorem checkNameTags_all_present {α : Type} (m : List (String × α)) :
    ∀ (l : List String), (∀ t ∈ l, ∃ v, alookup m t = some v) →
      checkNameTags l (some m) = Except.ok () := by
  intro l
  induction l with
  | nil => exact fun _ => rfl
  | cons a rest ih =>
      intro h
      obtain ⟨v, hv⟩ := h a (List.mem_cons_self _ _)
      simp only [checkNameTags, hv]
      exact ih (fun t ht => h t (List.mem_cons_of_mem a ht))

/-!
## Claim theorems
-/

/-- C1: name resolution is specified to replace every `(tagName)`
placeholder with its tag value, so resolving `"cpu_(host)"` with
`{"host": "a1"}` should give `"cpu_a1"` (spec section 8, and
`specResolveName`); the source's `Measurement.get_name` instead returns
the template unchanged because the result of `measurement_name.replace`
on line 212 is never assigned. -/
theorem get_name_returns_template_unchanged :
    get_name "cpu_(host)" (some [("host", "a1")]) = Except.ok "cpu_(host)" ∧
    specResolveName "cpu_(host)" [("host", "a1")] = "cpu_a1" ∧
    ("cpu_(host)" : String) ≠ "cpu_a1" :=
  ⟨rfl, rfl, by decide⟩

/-- C2 counterexample: the claim says `get_time_point_of_window` fails for
every alignment whenever the interval string does not match the grammar
`<positive integer><unit>`. It does not: with `START` alignment the
interval string is never parsed and the bucket start is returned even for
`"not-an-interval"`; and with `CENTER` alignment the non-grammar string
`"0h"` is accepted, because `int("0")` succeeds. -/
theorem window_index_failure_counterexample :
    matchesGrammar "not-an-interval" = false ∧
    get_time_point_of_window AggregationWindowIndex.START 0 "not-an-interval" =
      Except.ok 0 ∧
    matchesGrammar "0h" = false ∧
    get_time_point_of_window AggregationWindowIndex.CENTER 0 "0h" =
      Except.ok 0 :=
  ⟨rfl, rfl, rfl, rfl⟩

/-- C2 (amended): `START` alignment never inspects the interval string and
returns the bucket start; for `CENTER` and `END` the call succeeds exactly
when `get_value_and_unit` accepts the string (the value prefix parses as a
Python `int` and the final character is one of `s`/`m`/`h`/`d` — a strict
superset of the grammar); every string matching the grammar succeeds for
every alignment. -/
theorem window_index_failure_amended (al : AggregationWindowIndex) (t : Int)
    (s : String) :
    get_time_point_of_window AggregationWindowIndex.START t s = Except.ok t ∧
    (al ≠ AggregationWindowIndex.START →
      exOk (get_time_point_of_window al t s) = exOk (get_value_and_unit s)) ∧
    (matchesGrammar s = true →
      exOk (get_time_point_of_window al t s) = true) := by
  refine ⟨rfl, ?_, ?_⟩
  · intro hal
    cases al with
    | START => exact absurd rfl hal
    | CENTER =>
        cases huv : get_value_and_unit s with
        | error e => simp [get_time_point_of_window, huv, exOk]
        | ok p => cases p; simp [get_time_point_of_window, huv, exOk]
    | END =>
        cases huv : get_value_and_unit s with
        | error e => simp [get_time_point_of_window, huv, exOk]
        | ok p => cases p; simp [get_time_point_of_window, huv, exOk]
  · intro hg
    obtain ⟨v, u, huv⟩ := grammar_parse s hg
    cases al <;> simp [get_time_point_of_window, huv, exOk]

/-- Witness for C2 (amended) at concrete inputs. -/
theorem window_index_failure_amended_witness :
    exOk (get_time_point_of_window AggregationWindowIndex.CENTER 0 "4m") =
      exOk (get_value_and_unit "4m") ∧
    exOk (get_time_point_of_window AggregationWindowIndex.END 0 "3d") = true :=
  ⟨(window_index_failure_amended AggregationWindowIndex.CENTER 0 "4m").2.1
      (by decide),
   (window_index_failure_amended AggregationWindowIndex.END 0 "3d").2.2
      (by decide)⟩

/-- C6: for every bucket-start timestamp and every interval string the
parser reads as value `v` and unit `u`, the representative timestamp is
the bucket start for `START`, bucket start plus `v` unit durations for
`END`, and bucket start plus the exact half-interval `v * (duration / 2)`
for `CENTER` (microsecond timeline). -/
theorem window_index_arithmetic (t v : Int) (u : AggregationTimeUnit)
    (s : String) (h : get_value_and_unit s = Except.ok (v, u)) :
    get_time_point_of_window AggregationWindowIndex.START t s = Except.ok t ∧
    get_time_point_of_window AggregationWindowIndex.END t s =
      Except.ok (t + v * unitMicroseconds u) ∧
    get_time_point_of_window AggregationWindowIndex.CENTER t s =
      Except.ok (t + v * (unitMicroseconds u / 2)) := by
  refine ⟨rfl, ?_, ?_⟩ <;> simp [get_time_point_of_window, h]

/-- Witness for C6 at interval `"2h"`: start `t`, end `t + 2h`, center
`t + 1h`, on the microsecond timeline with `t = 0`. -/
theorem window_index_arithmetic_witness :
    get_time_point_of_window AggregationWindowIndex.START 0 "2h" =
      Except.ok 0 ∧
    get_time_point_of_window AggregationWindowIndex.END 0 "2h" =
      Except.ok 7200000000 ∧
    get_time_point_of_window AggregationWindowIndex.CENTER 0 "2h" =
      Except.ok 3600000000 :=
  window_index_arithmetic 0 2 AggregationTimeUnit.HOUR "2h" rfl

/-- C7: for every aggregation mode and field name, the select expression
is `<fn>(<field>) AS <alias>` with the alias literally equal to the
derived result column name `<fn>_<field>` (bare field for mode `NONE` in
both derivations). -/
theorem aggregation_catalog_consistent (m : AggregationMode) (f : String) :
    AggregationMode.aggregate_field m f =
      (if m = AggregationMode.NONE then f
       else AggregationMode.get_str m ++ "(" ++ f ++ ") AS " ++
         AggregationMode.get_result_field_name m f) ∧
    AggregationMode.get_result_field_name m f =
      (if m = AggregationMode.NONE then f
       else AggregationMode.get_str m ++ "_" ++ f) := by
  cases m <;> refine ⟨?_, ?_⟩ <;>
    simp [AggregationMode.aggregate_field, AggregationMode.get_result_field_name,
      AggregationMode.get_str, String.ext_iff, String.data_append,
      List.append_assoc]

/-- C3 counterexample: the claim says every descriptor (field or tag)
rejects a non-null value whose runtime type disagrees with its value
type, and in particular that a non-null non-string value assigned to a
Tag fails. `Tag.__set__` performs no type check: the integer `5` assigned
to a nullable tag is accepted and stored. -/
theorem tag_set_accepts_non_string :
    tagSet "host" true [] (PyVal.vInt 5) =
      Except.ok [("host", PyVal.vInt 5)] :=
  rfl

/-- C3 (amended): the concrete `Field` subclasses reject a non-null value
failing their `isinstance` check, but the `Tag` setter checks only
nullability, so any non-null value — of any runtime type — assigned
through a nullable Tag is stored unchanged. -/
theorem descriptor_type_checking_amended (fk : FieldKind) (name : String)
    (null : Bool) (data : List (String × PyVal)) (v : PyVal)
    (hv : v ≠ PyVal.vNone) (hty : runtimeTypeMatches fk v = false) :
    exErr (fieldSet fk name null data v) = true ∧
    (∀ (tagData : List (String × PyVal)) (w : PyVal), w ≠ PyVal.vNone →
      tagSet name true tagData w = Except.ok (upsert tagData name w)) := by
  constructor
  · unfold fieldSet fieldTypeCheck
    rw [if_pos ⟨hv, hty⟩]
    rfl
  · intro tagData w hw
    unfold tagSet
    rw [if_neg (by simp)]

/-- Witness for C3 (amended): the string `"x"` is rejected by an integer
field, while the integer `5` is stored through a (string-valued) tag. -/
theorem descriptor_type_checking_amended_witness :
    exErr (fieldSet FieldKind.integer "temp" true [] (PyVal.vStr "x")) = true ∧
    tagSet "temp" true [] (PyVal.vInt 5) =
      Except.ok [("temp", PyVal.vInt 5)] :=
  ⟨(descriptor_type_checking_amended FieldKind.integer "temp" true []
      (PyVal.vStr "x") (by decide) (by decide)).1,
   (descriptor_type_checking_amended FieldKind.integer "temp" true []
      (PyVal.vStr "x") (by decide) (by decide)).2 [] (PyVal.vInt 5) (by decide)⟩

/-- C5: for measurement `m`, tag filter `{"host": "a1"}`, time range
`(None, T)` and limit 5, the point query is character for character
`SELECT * FROM m WHERE "host"='a1' AND time <= '<T>' LIMIT 5;` where
`<T>` is the rfc3339 rendering of `T`. -/
theorem load_points_query_exact (tStr : String) :
    load_points_query "m" (some [("host", "a1")])
      (some (TimeRangeStrs.pair none (some tStr))) (some 5) =
    Except.ok ("SELECT * FROM m WHERE \"host\"='a1' AND time <= '" ++ tStr ++
      "' LIMIT 5;") := by
  simp [load_points_query, get_name, findNameTags, findTagsGo, checkNameTags,
    tagConditions, timeConditions, whereClause, joinStr,
    String.ext_iff, String.data_append, List.append_assoc]
  rfl

/-- C8: a template placeholder whose tag is not supplied (absent mapping,
or mapping without that key) makes `Measurement.get_name` raise, and makes
`load_points` raise during name resolution — before any query string is
produced, hence before anything is sent to the store. -/
theorem name_resolution_missing_tag (template t : String)
    (tags : Option (List (String × String)))
    (ht : t ∈ findNameTags template)
    (hmiss : ∀ ts, tags = some ts → alookup ts t = none) :
    exErr (get_name template tags) = true ∧
    (∀ (tr : Option TimeRangeStrs) (lim : Option Int),
      exErr (load_points_query template tags tr lim) = true) := by
  have herr : exErr (checkNameTags (findNameTags template) tags) = true := by
    cases tags with
    | none =>
        cases hfl : findNameTags template with
        | nil => rw [hfl] at ht; exact absurd ht (List.not_mem_nil t)
        | cons a rest => simp [checkNameTags, exErr]
    | some ts =>
        exact checkNameTags_missing t ts (findNameTags template) ht
          (hmiss ts rfl)
  constructor
  · cases hc : checkNameTags (findNameTags template) tags with
    | error e => simp [get_name, hc, exErr]
    | ok x => rw [hc] at herr; exact absurd herr (by simp [exErr])
  · intro tr lim
    cases hc : checkNameTags (findNameTags template) tags with
    | error e => simp [load_points_query, get_name, hc, exErr]
    | ok x => rw [hc] at herr; exact absurd herr (by simp [exErr])

/-- Witness for C8: template `"cpu_(host)"` with an empty tag mapping. -/
theorem name_resolution_missing_tag_witness :
    exErr (get_name "cpu_(host)" (some ([] : List (String × String)))) = true ∧
    exErr (load_points_query "cpu_(host)" (some []) none (some 5)) = true :=
  ⟨(name_resolution_missing_tag "cpu_(host)" "host" (some []) (by decide)
      (by intro ts h; cases h; rfl)).1,
   (name_resolution_missing_tag "cpu_(host)" "host" (some []) (by decide)
      (by intro ts h; cases h; rfl)).2 none (some 5)⟩

/-- C9: the fill-mode/fill-number coupling of `get_fields_as_series`: the
fill check passes exactly when a numeric fill value is present iff the
fill mode is `number`; when it fails, the whole call raises before any
query string is assembled. -/
theorem fill_mode_number_coupling (fillMode : Option FillMode)
    (fillNumber : Option Int) :
    (exOk (checkFill fillMode fillNumber) = true ↔
      (fillNumber.isSome = true ↔ fillMode = some FillMode.NUMBER)) ∧
    (∀ (cls : ModelClass)
      (fa : Option (List (String × Option (List AggregationMode))))
      (tags : Option (List (String × String))) (groupBy : Option String)
      (tr : Option TimeRangeStrs) (lim : Option Int),
      exOk (checkFill fillMode fillNumber) = false →
      exErr (get_fields_as_series_query cls fa tags groupBy fillMode
        fillNumber tr lim) = true) := by
  constructor
  · rcases fillMode with _ | fm
    · rcases fillNumber with _ | n <;> simp [checkFill, exOk]
    · cases fm <;> rcases fillNumber with _ | n <;> simp [checkFill, exOk]
  · intro cls fa tags groupBy tr lim h
    cases hfa : checkFieldAggregations fa with
    | error e => simp [get_fields_as_series_query, hfa, exErr]
    | ok _ =>
        cases hcf : checkFill fillMode fillNumber with
        | error e => simp [get_fields_as_series_query, hfa, hcf, exErr]
        | ok _ => rw [hcf] at h; exact absurd h (by simp [exOk])

/-- Witness for C9: number fill mode without a numeric value fails the
whole aggregated-series call. -/
theorem fill_mode_number_coupling_witness :
    (exOk (checkFill (some FillMode.NUMBER) none) = true ↔
      ((none : Option Int).isSome = true ↔
        (some FillMode.NUMBER : Option FillMode) = some FillMode.NUMBER)) ∧
    exErr (get_fields_as_series_query
      { measurementName := "m", attrs := [("temp", Descriptor.field FieldKind.float true)] }
      (some [("temp", none)]) none none (some FillMode.NUMBER) none none none) =
      true :=
  ⟨(fill_mode_number_coupling (some FillMode.NUMBER) none).1,
   (fill_mode_number_coupling (some FillMode.NUMBER) none).2
     { measurementName := "m", attrs := [("temp", Descriptor.field FieldKind.float true)] }
     (some [("temp", none)]) none none none none rfl⟩

/-- If some keyword argument's key is neither a declared attribute nor
`"time_point"`, the initialization loop raises no matter what happens
before it. -/
theorem initLoop_unknown_key (cls : ModelClass) :
    ∀ (kwargs : List (String × PyVal)) (st : Instance),
      (∃ p ∈ kwargs, alookup cls.attrs p.1 = none ∧ p.1 ≠ "time_point") →
      exErr (initLoop cls st kwargs) = true := by
  intro kwargs
  induction kwargs with
  | nil =>
      intro st h
      obtain ⟨p, hp, _⟩ := h
      exact absurd hp (List.not_mem_nil p)
  | cons kv rest ih =>
      intro st h
      obtain ⟨p, hp, hnone, hne⟩ := h
      rcases List.mem_cons.mp hp with rfl | hmem
      · have hstep : initStep cls st p.1 p.2 =
            Except.error ("value given in instance initialization but was not defined in model as Tag or Field. key:" ++ p.1) := by
          unfold initStep
          rw [hnone]
          rw [if_neg hne]
        cases hkv : p with
        | mk k v =>
            rw [hkv] at hstep
            simp only [initLoop, hstep]
            rfl
      · cases kv with
        | mk k v =>
            cases hstep : initStep cls st k v with
            | error e => simp [initLoop, hstep, exErr]
            | ok st' =>
                simp only [initLoop, hstep]
                exact ih st' ⟨p, hmem, hnone, hne⟩

/-- C10: constructing a Measurement instance with a keyword argument that
names neither a declared field, nor a declared tag, nor `time_point`,
always raises and produces no instance; conversely a keyword naming a
declared field or tag is stored through that descriptor's validating
setter. -/
theorem measurement_init_kwargs (cls : ModelClass) (tp : NaiveDatetime)
    (kwargs : List (String × PyVal))
    (h : ∃ p ∈ kwargs, alookup cls.attrs p.1 = none ∧ p.1 ≠ "time_point") :
    exErr (myCustomInit cls tp kwargs) = true ∧
    (∀ (k : String) (fk : FieldKind) (nl : Bool) (v : PyVal),
      alookup cls.attrs k = some (Descriptor.field fk nl) →
      myCustomInit cls tp [(k, v)] =
        (fieldSet fk k nl [] v).map
          (fun d => { timePoint := tp, data := d })) ∧
    (∀ (k : String) (nl : Bool) (v : PyVal),
      alookup cls.attrs k = some (Descriptor.tag nl) →
      myCustomInit cls tp [(k, v)] =
        (tagSet k nl [] v).map
          (fun d => { timePoint := tp, data := d })) := by
  refine ⟨initLoop_unknown_key cls kwargs _ h, ?_, ?_⟩
  · intro k fk nl v hlook
    cases hfs : fieldSet fk k nl [] v with
    | error e => simp [myCustomInit, initLoop, initStep, hlook, hfs, Except.map]
    | ok d => simp [myCustomInit, initLoop, initStep, hlook, hfs, Except.map]
  · intro k nl v hlook
    cases hts : tagSet k nl [] v with
    | error e => simp [myCustomInit, initLoop, initStep, hlook, hts, Except.map]
    | ok d => simp [myCustomInit, initLoop, initStep, hlook, hts, Except.map]

/-- Witness for C10: the unknown keyword `bogus` aborts construction of an
instance of a class declaring the field `temp` and the tag `host`. -/
theorem measurement_init_kwargs_witness :
    exErr (myCustomInit
      { measurementName := "m",
        attrs := [("temp", Descriptor.field FieldKind.float true),
                  ("host", Descriptor.tag true)] }
      { year := 2020, month := 1, day := 1, hour := 0, minute := 0,
        second := 0, microsecond := 0 }
      [("temp", PyVal.vFloat 1), ("bogus", PyVal.vInt 3)]) = true :=
  (measurement_init_kwargs
    { measurementName := "m",
      attrs := [("temp", Descriptor.field FieldKind.float true),
                ("host", Descriptor.tag true)] }
    { year := 2020, month := 1, day := 1, hour := 0, minute := 0,
      second := 0, microsecond := 0 }
    [("temp", PyVal.vFloat 1), ("bogus", PyVal.vInt 3)]
    ⟨("bogus", PyVal.vInt 3), by decide, by decide, by decide⟩).1

/-- C4: for a record that stores a value for every declared attribute,
with every non-nullable field and tag non-null, and whose name template's
placeholders all name declared tags, `get_cli_format` succeeds and
produces exactly the four-key wire record: the measurement name resolved
from the record's own tag values, the tag-name-to-value dict, the
`str(...)` rendering of the timestamp, and the field-name-to-value
dict. -/
theorem get_cli_format_wire_record (cls : ModelClass) (inst : Instance)
    (hrec : recordOk cls inst = true)
    (hph : ∀ t ∈ findNameTags cls.measurementName, t ∈ tagNames cls) :
    ∃ td fd,
      tagValuesDict inst cls.attrs = Except.ok td ∧
      fieldValuesDict inst cls.attrs = Except.ok fd ∧
      get_name cls.measurementName (some td) = Except.ok cls.measurementName ∧
      get_cli_format cls inst = Except.ok
        { measurement := cls.measurementName, tags := td,
          time := pyDatetimeStr inst.timePoint, fields := fd } := by
  have hall : ∀ p ∈ cls.attrs, attrOk inst p = true := List.all_eq_true.mp hrec
  obtain ⟨fvals, hfv, hfchk⟩ := collectFields_ok inst cls.attrs hall
  obtain ⟨tvals, htv, htchk⟩ := collectTags_ok inst cls.attrs hall
  have hkeys : (tvals.map (fun t => (t.1, t.2.2))).map Prod.fst = tagNames cls := by
    rw [List.map_map]
    exact collectTags_keys inst cls.attrs tvals htv
  have hok : checkNameTags (findNameTags cls.measurementName)
      (some (tvals.map (fun t => (t.1, t.2.2)))) = Except.ok () := by
    apply checkNameTags_all_present
    intro t ht
    apply alookup_mem_keys
    rw [hkeys]
    exact hph t ht
  refine ⟨tvals.map (fun t => (t.1, t.2.2)), fvals.map (fun t => (t.1, t.2.2)),
    ?_, ?_, ?_, ?_⟩
  · simp [tagValuesDict, htv, Except.map]
  · simp [fieldValuesDict, hfv, Except.map]
  · simp [get_name, hok]
  · simp [get_cli_format, hfv, hfchk, htv, htchk, tagValuesDict,
      fieldValuesDict, get_name, hok, Except.map]

/-- Witness for C4: serializing `demoRecord` of `demoClass`. -/
theorem get_cli_format_wire_record_witness :
    ∃ td fd,
      tagValuesDict demoRecord demoClass.attrs = Except.ok td ∧
      fieldValuesDict demoRecord demoClass.attrs = Except.ok fd ∧
      get_name demoClass.measurementName (some td) =
        Except.ok demoClass.measurementName ∧
      get_cli_format demoClass demoRecord = Except.ok
        { measurement := demoClass.measurementName, tags := td,
          time := pyDatetimeStr demoRecord.timePoint, fields := fd } :=
  get_cli_format_wire_record demoClass demoRecord (by decide) (by decide)

end Pinform
